import Mathlib

/-!
Verification of the dotdipper manifest-based file synchronization engine.

This file shallowly embeds the core of the repository:
  * `src/hash/mod.rs`   — fingerprints, `Manifest`, persistence, `Manifest::diff`
  * `src/diff/mod.rs`   — the per-entry three-state classification (`diff`)
  * `src/repo/apply.rs` — the apply engine (`apply`, `apply_file`,
    `is_already_applied`) with its per-entry skip/success outcomes

Modelling conventions:
  * Rust `Path`s are modelled as an absolute/relative flag plus a list of
    components (`RPath`); `Path::join`, `Path::starts_with`,
    `Path::file_stem`, `Path::extension` and `Path::set_file_name` are
    transcribed at the component level.
  * The filesystem is a finite association list from full paths to nodes
    (`FS`); a node is a regular file, a directory, or a symlink storing its
    literal link value.  `Path::exists`, `Path::is_file` and `Path::is_dir`
    follow symlink chains (with fuel, mirroring the kernel's ELOOP cutoff);
    `Path::is_symlink` and `fs::read_link` do not.
  * File contents are identified by their BLAKE3 digest (a `String` in the
    field `digest`): `hash_file` is a pure, collision-resistant function of
    the byte stream, so the engine — which only ever compares digests —
    is insensitive to the distinction.  Copying a file copies its bytes and
    hence its digest.
  * External collaborators (the decryption provider, the interactive
    confirmation prompt, temp-file name allocation, backup-path timestamping)
    are oracles carried in the environment `Env`.
-/

namespace Dotdipper

/-- A Rust `PathBuf`: absolute flag plus normal components (no `.`/`..`
interpretation — Rust paths are syntactic). -/
structure RPath where
  absolute : Bool
  comps : List String
deriving DecidableEq, Repr

/-- Rust `Path::join`: an absolute right operand replaces the left one. -/
def RPath.join (p q : RPath) : RPath :=
  if q.absolute then q else ⟨p.absolute, p.comps ++ q.comps⟩

/-- Component-wise list prefix test. -/
def compsLE : List String → List String → Bool
  | [], _ => true
  | _ :: _, [] => false
  | a :: as_, b :: bs => a = b && compsLE as_ bs

/-- Rust `Path::starts_with`: component-wise prefix (purely syntactic,
no `..` resolution). -/
def RPath.startsWith (p base : RPath) : Bool :=
  (p.absolute = base.absolute) && compsLE base.comps p.comps

/-- Test that `base` is a path-prefix of `p` (used by `remove_dir_all` /
recursive copy to delimit a subtree; includes `p = base`). -/
def RPath.isAncestorOf (base p : RPath) : Bool :=
  p.startsWith base

/-- Split a file name at its last `.`, provided that dot is not the leading
character (Rust's `file_stem`/`extension` rule: `".bashrc"` has no
extension). Returns `(stem, extension)`. -/
def splitLastDot : List Char → Option (List Char × List Char)
  | [] => none
  | c :: rest =>
    match splitLastDot rest with
    | some (pre, ext) => some (c :: pre, ext)
    | none => if c = '.' then some ([], rest) else none

/-- Rust `Path::extension` on a file-name component. -/
def fileNameExtension (s : String) : Option String :=
  match splitLastDot s.toList with
  | some (pre, ext) => if pre = [] then none else some (String.mk ext)
  | none => none

/-- Rust `Path::file_stem` on a file-name component. -/
def fileNameStem (s : String) : String :=
  match splitLastDot s.toList with
  | some (pre, _) => if pre = [] then s else String.mk pre
  | none => s

/-- Rust `Path::extension` of a full path (extension of its last component). -/
def RPath.extension (p : RPath) : Option String :=
  match p.comps.getLast? with
  | some n => fileNameExtension n
  | none => none

/-- The `target_path.set_file_name(stem)` step guarded by `file_stem()` being
present, as in `apply` (strips the `.age` suffix from the target). -/
def RPath.stripLastExtension (p : RPath) : RPath :=
  match p.comps.getLast? with
  | some n => ⟨p.absolute, p.comps.dropLast ++ [fileNameStem n]⟩
  | none => p

/-- Rust `Path::parent`. -/
def RPath.parent? (p : RPath) : Option RPath :=
  match p.comps with
  | [] => none
  | _ :: _ => some ⟨p.absolute, p.comps.dropLast⟩

/-- Rust `Path::display` (enough of it to build the `~/{}` override keys). -/
def RPath.display (p : RPath) : String :=
  (if p.absolute then "/" else "") ++ String.intercalate "/" p.comps

/-- A filesystem node: regular file (identified by the BLAKE3 digest of its
bytes), directory, or symlink carrying its literal link value. -/
inductive Node where
  | file (digest : String)
  | dir
  | symlink (dest : RPath)
deriving DecidableEq, Repr

/-- The filesystem: a finite map from full paths to nodes. -/
abbrev FS := List (RPath × Node)

def FS.lookup : FS → RPath → Option Node
  | [], _ => none
  | (q, n) :: rest, p => if q = p then some n else FS.lookup rest p

/-- Follow symlink chains with fuel (the kernel reports `ELOOP` on cycles,
which surfaces as "does not exist" / an I/O error). -/
def FS.resolve : Nat → FS → RPath → Option Node
  | 0, _, _ => none
  | fuel + 1, fs, p =>
    match fs.lookup p with
    | some (Node.symlink d) => FS.resolve fuel fs d
    | other => other

/-- Rust `Path::exists` — follows symlinks. -/
def pathExists (fs : FS) (p : RPath) : Bool :=
  (FS.resolve (fs.length + 1) fs p).isSome

/-- Rust `Path::is_symlink` — `symlink_metadata`, does not follow. -/
def isSymlink (fs : FS) (p : RPath) : Bool :=
  match fs.lookup p with
  | some (Node.symlink _) => true
  | _ => false

/-- Rust `Path::is_file` — follows symlinks. -/
def isFile (fs : FS) (p : RPath) : Bool :=
  match FS.resolve (fs.length + 1) fs p with
  | some (Node.file _) => true
  | _ => false

/-- Rust `Path::is_dir` — follows symlinks. -/
def isDir (fs : FS) (p : RPath) : Bool :=
  match FS.resolve (fs.length + 1) fs p with
  | some Node.dir => true
  | _ => false

/-- Rust `fs::read_link`: the literal link value of a symlink. -/
def readLink (fs : FS) (p : RPath) : Option RPath :=
  match fs.lookup p with
  | some (Node.symlink d) => some d
  | _ => none

/-- The function `hash_file` (src/hash/mod.rs): opens the path (following symlinks) and
digests the byte stream; fails on directories and unresolvable paths. -/
def hashFileFS (fs : FS) (p : RPath) : Option String :=
  match FS.resolve (fs.length + 1) fs p with
  | some (Node.file h) => some h
  | _ => none

/-- Drop every binding at exactly `p` (`fs::remove_file`). -/
def FS.erase (fs : FS) (p : RPath) : FS :=
  fs.filter (fun e => !(e.1 = p : Bool))

/-- Bind `p` to `n`, replacing any previous binding. -/
def FS.insert (fs : FS) (p : RPath) (n : Node) : FS :=
  (p, n) :: fs.erase p

/-- Rust `fs::remove_dir_all`: drop `p` and everything under it. -/
def FS.removeTree (fs : FS) (p : RPath) : FS :=
  fs.filter (fun e => !(p.isAncestorOf e.1))

/-- The chain of ancestors of `p` (shortest first), `p` included. -/
def ancestorChain (p : RPath) : List RPath :=
  (List.range p.comps.length).map (fun i => ⟨p.absolute, p.comps.take (i + 1)⟩)

/-- Rust `fs::create_dir_all`: create missing directories along the path. -/
def FS.mkdirAll (fs : FS) (p : RPath) : FS :=
  (ancestorChain p).foldl
    (fun acc q => if acc.lookup q = none then acc.insert q Node.dir else acc)
    fs

/-- Rebase a path under `source` to the corresponding path under `target`. -/
def rebase (source target p : RPath) : RPath :=
  ⟨target.absolute, target.comps ++ p.comps.drop source.comps.length⟩

/-- The function `copy_file_with_metadata`: copy the bytes of `source` (following
symlinks) to `target`; bytes determine the digest. -/
def FS.copyFile (fs : FS) (source target : RPath) : FS :=
  match FS.resolve (fs.length + 1) fs source with
  | some (Node.file h) => fs.insert target (Node.file h)
  | _ => fs

/-- The function `copy_dir_recursive`: replicate the subtree rooted at `source` under
`target` (node-level transcription of the per-entry recursion). -/
def FS.copyTree (fs : FS) (source target : RPath) : FS :=
  (fs.filter (fun e => source.isAncestorOf e.1)).foldl
    (fun acc e => acc.insert (rebase source target e.1) e.2)
    fs

/-- The function `create_backup`: copy the target (file or directory tree) to the
timestamped sibling path chosen by the backup-path oracle. -/
def createBackup (fs : FS) (p backupPath : RPath) : FS :=
  if isDir fs p then fs.copyTree p backupPath else fs.copyFile p backupPath

/-! ## Apply engine (src/repo/apply.rs) -/

/-- The type `cfg::RestoreMode`. -/
inductive RestoreMode where
  | Symlink
  | Copy
deriving DecidableEq, Repr

/-- The type `AppliedMode`. -/
inductive AppliedMode where
  | Symlinked
  | Copied
  | Skipped
deriving DecidableEq, Repr

/-- The type `AppliedAction`. -/
structure AppliedAction where
  mode : AppliedMode
  target : RPath
  source : RPath
  backup_created : Bool
  skipped_reason : Option String
deriving DecidableEq, Repr

/-- The type `cfg::FileOverride`. -/
structure FileOverride where
  mode : Option RestoreMode
  exclude : Bool
deriving DecidableEq, Repr

/-- The mode reported for an entry found already applied
(`apply_file`, lines 192–196). -/
def alreadyAppliedMode : RestoreMode → AppliedMode
  | RestoreMode.Symlink => AppliedMode.Symlinked
  | RestoreMode.Copy => AppliedMode.Copied

/-- The function `is_already_applied` (src/repo/apply.rs, 268–294): idempotency test. -/
def is_already_applied (fs : FS) (source target : RPath) (mode : RestoreMode) : Bool :=
  if !pathExists fs target && !isSymlink fs target then
    false
  else
    match mode with
    | RestoreMode.Symlink =>
      if isSymlink fs target then
        decide (readLink fs target = some source)
      else
        false
    | RestoreMode.Copy =>
      if isFile fs source && isFile fs target then
        decide (hashFileFS fs source = hashFileFS fs target)
      else
        false

/-- The function `apply_file` (src/repo/apply.rs, 172–266).  `promptAnswer` is the
answer the interactive confirmation would give for this target;
`backupPath` the timestamped sibling chosen by `create_backup`.
Fatal filesystem errors (parent-dir creation, removal, symlink/copy
failures) do not arise in the model: every modelled mutation succeeds. -/
def apply_file (fs : FS) (source target : RPath) (mode : RestoreMode)
    (backup_enabled force promptAnswer : Bool) (backupPath : RPath) :
    FS × AppliedAction :=
  if !pathExists fs source then
    (fs, ⟨AppliedMode.Skipped, target, source, false, some "Source not found"⟩)
  else if is_already_applied fs source target mode then
    (fs, ⟨alreadyAppliedMode mode, target, source, false, some "Already applied"⟩)
  else if (pathExists fs target || isSymlink fs target) && !force && !promptAnswer then
    (fs, ⟨AppliedMode.Skipped, target, source, false, some "User declined"⟩)
  else
    let present := pathExists fs target || isSymlink fs target
    let backup_created := present && backup_enabled && !isSymlink fs target
    let fs1 := if backup_created then createBackup fs target backupPath else fs
    let fs2 :=
      if present then
        if isDir fs1 target && !isSymlink fs1 target then fs1.removeTree target
        else fs1.erase target
      else fs1
    let fs3 :=
      match target.parent? with
      | some par => fs2.mkdirAll par
      | none => fs2
    match mode with
    | RestoreMode.Symlink =>
      (fs3.insert target (Node.symlink source),
       ⟨AppliedMode.Symlinked, target, source, backup_created, none⟩)
    | RestoreMode.Copy =>
      if isDir fs3 source then
        (fs3.copyTree source target,
         ⟨AppliedMode.Copied, target, source, backup_created, none⟩)
      else
        (fs3.copyFile source target,
         ⟨AppliedMode.Copied, target, source, backup_created, none⟩)

/-- The inputs and external collaborators of one `apply` run:
roots, the relevant configuration (`cfg.files`, `cfg.general`), the
`ApplyOpts`, and the oracles for decryption, temp-file allocation, the
confirmation prompt and backup naming. -/
structure Env where
  home : RPath
  compiled_root : RPath
  files : List (String × FileOverride)
  default_mode : RestoreMode
  backup : Bool
  force : Bool
  allow_outside_home : Bool
  decryptFn : RPath → Option String
  tempFn : RPath → RPath
  promptFn : RPath → Bool
  backupFn : RPath → RPath

/-- Association lookup in `cfg.files`. -/
def lookupOverride : List (String × FileOverride) → String → Option FileOverride
  | [], _ => none
  | (k, v) :: rest, s => if k = s then some v else lookupOverride rest s

/-- The `source_path` before decryption rewriting. -/
def sourceOf (E : Env) (rel : RPath) : RPath :=
  E.compiled_root.join rel

/-- The `target_path` before decryption rewriting. -/
def targetOf (E : Env) (rel : RPath) : RPath :=
  E.home.join rel

/-- The `.age` test on the source path (`apply`, lines 61–64). -/
def isEncryptedSource (E : Env) (rel : RPath) : Bool :=
  (sourceOf E rel).extension = some "age"

/-- The `~/{}` key used to look up per-file overrides (`apply`, line 124). -/
def overrideKey (rel : RPath) : String :=
  "~/" ++ rel.display

/-- The `cfg.files` override for an entry. -/
def overrideOf (E : Env) (rel : RPath) : Option FileOverride :=
  lookupOverride E.files (overrideKey rel)

/-- The exclusion test (`apply`, line 128). -/
def isExcluded (E : Env) (rel : RPath) : Bool :=
  match overrideOf E rel with
  | some o => o.exclude
  | none => false

/-- Mode resolution (`apply`, lines 141–143). -/
def modeOf (E : Env) (rel : RPath) : RestoreMode :=
  match overrideOf E rel with
  | some o => o.mode.getD E.default_mode
  | none => E.default_mode

/-- The tail of the per-entry loop body after the decryption branch:
safety check, exclusion check, mode resolution, `apply_file`, and the
temp-file cleanup that only runs when `apply_file` returns `Ok`
(`apply`, lines 110–161).  `tempCreated` is the temp plaintext path when
one was written. -/
def applyEntryRest (E : Env) (fs : FS) (rel source target : RPath)
    (tempCreated : Option RPath) : FS × AppliedAction :=
  if !E.allow_outside_home && !target.startsWith E.home then
    (fs, ⟨AppliedMode.Skipped, target, source, false, some "Outside $HOME"⟩)
  else if isExcluded E rel then
    (fs, ⟨AppliedMode.Skipped, target, source, false, some "Excluded"⟩)
  else
    let res := apply_file fs source target (modeOf E rel) E.backup E.force
      (E.promptFn target) (E.backupFn target)
    match tempCreated with
    | some t => (res.1.erase t, res.2)
    | none => res

/-- One iteration of the `apply` loop (src/repo/apply.rs, 56–162):
encryption check and decryption rewriting, then the rest. -/
def applyEntry (E : Env) (fs : FS) (rel : RPath) : FS × AppliedAction :=
  let source := sourceOf E rel
  let target := targetOf E rel
  if isEncryptedSource E rel then
    match E.decryptFn source with
    | some content =>
      let temp := E.tempFn source
      let fs' := fs.insert temp (Node.file content)
      applyEntryRest E fs' rel temp target.stripLastExtension (some temp)
    | none =>
      (fs, ⟨AppliedMode.Skipped, target, source, false, some "Decryption failed"⟩)
  else
    applyEntryRest E fs rel source target none

/-- The `apply` loop over the manifest's keys, in the iteration order of
the in-memory `HashMap` (the `_file_hash` values are unused by the loop).
Outcomes are accumulated in visitation order. -/
def applyEntries (E : Env) (fs : FS) : List RPath → FS × List AppliedAction
  | [] => (fs, [])
  | r :: rs =>
    let step := applyEntry E fs r
    let rest := applyEntries E step.1 rs
    (rest.1, step.2 :: rest.2)

/-! ## Diff engine (src/diff/mod.rs) -/

/-- The type `DiffStatus`. -/
inductive DiffStatus where
  | Modified
  | New
  | Missing
  | Identical
deriving DecidableEq, Repr

/-- The per-entry classification of `diff` (src/diff/mod.rs, 68–88):
existence check, then the symlink branch comparing the literal link value
to `source`, then the hash comparison against the stored fingerprint. -/
def classifyEntry (fs : FS) (source target : RPath) (storedHash : String) :
    DiffStatus :=
  if !pathExists fs target then
    DiffStatus.Missing
  else if isSymlink fs target then
    match readLink fs target with
    | some link => if link = source then DiffStatus.Identical else DiffStatus.Modified
    | none => DiffStatus.Modified
  else
    match hashFileFS fs target with
    | some h => if h = storedHash then DiffStatus.Identical else DiffStatus.Modified
    | none => DiffStatus.Missing

/-- The type `DiffEntry`. -/
structure DiffEntry where
  rel_path : RPath
  source_path : RPath
  target_path : RPath
  status : DiffStatus
deriving DecidableEq, Repr

/-- The body of `diff`'s loop over the (sorted) manifest entries, given as
`(rel_path, stored hash)` pairs; the classification of each entry is
independent of the others. -/
def diffEntries (fs : FS) (compiled_root home : RPath) :
    List (RPath × String) → List DiffEntry
  | [] => []
  | (rel, h) :: rest =>
    let source := compiled_root.join rel
    let target := home.join rel
    ⟨rel, source, target, classifyEntry fs source target h⟩ ::
      diffEntries fs compiled_root home rest

/-! ## Fingerprint store (src/hash/mod.rs) -/

/-- The type `FileHash`: the fingerprint of one file.  The `path` is the serialized
path string; `modified` is the capture timestamp's serialized scalar
value (nanoseconds since the epoch — the RFC 3339 rendering used on disk
round-trips this value exactly). -/
structure FileHash where
  path : String
  hash : String
  size : Nat
  mode : Nat
  modified : Nat
deriving DecidableEq, Repr

/-- The type `Manifest`: version, creation timestamp, and the path-keyed fingerprint
map.  The `HashMap<PathBuf, FileHash>` is modelled as an association list
whose keys are unique (`HashMap` keys are). -/
structure Manifest where
  version : String
  created : Nat
  files : List (String × FileHash)
deriving DecidableEq, Repr

/-- The JSON fragment the manifest serialization uses
(`serde_json::to_string_pretty` / `from_str`): strings, unsigned numbers
and objects. -/
inductive Json where
  | str (s : String)
  | num (n : Nat)
  | obj (fields : List (String × Json))

/-- Association lookup among an object's fields (serde matches fields by
name). -/
def getField : List (String × Json) → String → Option Json
  | [], _ => none
  | (k, v) :: rest, s => if k = s then some v else getField rest s

def Json.asStr : Json → Option String
  | Json.str s => some s
  | _ => none

def Json.asNum : Json → Option Nat
  | Json.num n => some n
  | _ => none

def Json.asObj : Json → Option (List (String × Json))
  | Json.obj l => some l
  | _ => none

/-- Serialization of one `FileHash` (serde derive: fields in declaration
order). -/
def FileHash.toJson (f : FileHash) : Json :=
  Json.obj [("path", Json.str f.path), ("hash", Json.str f.hash),
            ("size", Json.num f.size), ("mode", Json.num f.mode),
            ("modified", Json.num f.modified)]

/-- Deserialization of one `FileHash`. -/
def FileHash.fromJson (j : Json) : Option FileHash :=
  match j.asObj with
  | none => none
  | some fields =>
    match (getField fields "path").bind Json.asStr,
          (getField fields "hash").bind Json.asStr,
          (getField fields "size").bind Json.asNum,
          (getField fields "mode").bind Json.asNum,
          (getField fields "modified").bind Json.asNum with
    | some p, some h, some sz, some md, some mo =>
      some ⟨p, h, sz, md, mo⟩
    | _, _, _, _, _ => none

/-- The function `Manifest::save`: the serialized form written to disk
(`{version, created, files: {path: fingerprint}}`). -/
def Manifest.save (m : Manifest) : Json :=
  Json.obj [("version", Json.str m.version), ("created", Json.num m.created),
            ("files", Json.obj (m.files.map (fun e => (e.1, FileHash.toJson e.2))))]

/-- Deserialize the `files` map, entry by entry. -/
def decodeFiles : List (String × Json) → Option (List (String × FileHash))
  | [] => some []
  | (k, j) :: rest =>
    match FileHash.fromJson j, decodeFiles rest with
    | some fh, some tail => some ((k, fh) :: tail)
    | _, _ => none

/-- The function `Manifest::load`: parse the serialized form back into a `Manifest`;
fails (`ParseError`) on anything malformed. -/
def Manifest.load (j : Json) : Option Manifest :=
  match j.asObj with
  | none => none
  | some fields =>
    match (getField fields "version").bind Json.asStr,
          (getField fields "created").bind Json.asNum,
          (getField fields "files").bind Json.asObj with
    | some v, some c, some fl =>
      match decodeFiles fl with
      | some files => some ⟨v, c, files⟩
      | none => none
    | _, _, _ => none

/-- Key lookup in a manifest's `files` map (`HashMap::get`). -/
def lookupFH : List (String × FileHash) → String → Option FileHash
  | [], _ => none
  | (k, v) :: rest, s => if k = s then some v else lookupFH rest s

/-- Rust `HashMap::contains_key`. -/
def containsKey (l : List (String × FileHash)) (k : String) : Bool :=
  (lookupFH l k).isSome

/-- The type `ManifestDiff`. -/
structure ManifestDiff where
  added : List String
  modified : List String
  deleted : List String
deriving DecidableEq, Repr

/-- The function `Manifest::diff` (src/hash/mod.rs, 67–90): one pass over `self.files`
pushing `modified` (present in both, differing `hash`) and `deleted`
(absent from `other`), then one pass over `other.files` pushing `added`
(absent from `self`).  A pure function of the two maps; no filesystem
access (the definition takes no `FS`). -/
def Manifest.diff (self other : Manifest) : ManifestDiff :=
  { modified :=
      (self.files.filter (fun e =>
        match lookupFH other.files e.1 with
        | some oh => !(e.2.hash = oh.hash : Bool)
        | none => false)).map (fun e => e.1)
    deleted :=
      (self.files.filter (fun e => (lookupFH other.files e.1).isNone)).map
        (fun e => e.1)
    added :=
      (other.files.filter (fun e => !containsKey self.files e.1)).map
        (fun e => e.1) }

/-! ## Semantic auxiliaries (not part of the program) -/

/-- Path resolution of `.`/`..` components, used to state what "the target
resolves outside the target root" means in the spec.  (The program itself
never performs this normalization; `Path::starts_with` is syntactic.) -/
def normalizeComps (l : List String) : List String :=
  l.foldl (fun acc c =>
    if c = ".." then acc.dropLast
    else if c = "." then acc
    else acc ++ [c]) []

/-- The spec's notion: the entry's target, after resolving `..`/`.`
components, does not lie under `home`. -/
def resolvesOutside (home p : RPath) : Bool :=
  !(RPath.startsWith ⟨p.absolute, normalizeComps p.comps⟩ home)

/-! ## Concrete fixtures for witnesses and counterexamples -/

def home0 : RPath := ⟨true, ["home", "u"]⟩

def comp0 : RPath := ⟨true, ["home", "u", "dots"]⟩

/-- A baseline environment: default symlink mode, backup off, force off,
outside-home writes disallowed, decryption succeeding with plaintext
`"PLAIN"`, a fixed temp path, prompts declined. -/
def baseEnv : Env :=
  { home := home0, compiled_root := comp0, files := [],
    default_mode := RestoreMode.Symlink, backup := false, force := false,
    allow_outside_home := false,
    decryptFn := fun _ => some "PLAIN",
    tempFn := fun _ => ⟨true, ["tmp", "t1"]⟩,
    promptFn := fun _ => false,
    backupFn := fun p => ⟨p.absolute, p.comps ++ ["bak"]⟩ }

def relA : RPath := ⟨false, [".bashrc"]⟩

def srcA : RPath := comp0.join relA

def tgtA : RPath := home0.join relA

/-- Target is a dangling symlink. -/
def fsDangling : FS :=
  [(srcA, Node.file "H"), (tgtA, Node.symlink ⟨true, ["nowhere"]⟩)]

/-- Target is a symlink pointing at the source. -/
def fsLinked : FS :=
  [(srcA, Node.file "H"), (tgtA, Node.symlink srcA)]

/-- Target is a directory (hashing it fails). -/
def fsDirTarget : FS :=
  [(srcA, Node.file "H"), (tgtA, Node.dir)]

/-- Target is a regular file with a different digest. -/
def fsOtherFile : FS :=
  [(srcA, Node.file "H"), (tgtA, Node.file "G")]

/-- Only the compiled source exists. -/
def fsSourceOnly : FS := [(srcA, Node.file "H")]

/-! ## Theorems -/

/-- Claim C2, counterexample.  The claim says a dangling symlink at the
target is classified `Modified`, never `Missing`.  In the code the first
check is `!target_path.exists()`, and Rust's `Path::exists` follows
symlinks: a dangling symlink "does not exist", so the classification is
`Missing` before the symlink branch is ever reached.  Concretely: the
target is a symlink to `/nowhere` (which differs from the source and
resolves to nothing), and the diff classifies it `Missing`. -/
theorem diff_dangling_symlink_is_missing :
    isSymlink fsDangling tgtA = true ∧
    readLink fsDangling tgtA = some ⟨true, ["nowhere"]⟩ ∧
    (⟨true, ["nowhere"]⟩ : RPath) ≠ srcA ∧
    pathExists fsDangling ⟨true, ["nowhere"]⟩ = false ∧
    classifyEntry fsDangling srcA tgtA "H" = DiffStatus.Missing ∧
    DiffStatus.Missing ≠ DiffStatus.Modified := by
  decide

/-- Claim C2, amended.  For a manifest entry whose target is a symlink
*that resolves to an existing node*, the classification is `Identical`
exactly when the literal link value equals the source and `Modified`
otherwise; a symlink that does not resolve (a dangling link) is
classified `Missing`. -/
theorem diff_symlink_classification (fs : FS) (source target : RPath)
    (stored : String) (hsym : isSymlink fs target = true) :
    classifyEntry fs source target stored =
      (if pathExists fs target then
        (if readLink fs target = some source then DiffStatus.Identical
         else DiffStatus.Modified)
       else DiffStatus.Missing) := by
  unfold classifyEntry
  cases hex : pathExists fs target with
  | false => simp
  | true =>
    simp only [hex, hsym, Bool.not_true, Bool.false_eq_true, if_false, if_true]
    cases hrl : readLink fs target with
    | none => simp
    | some l =>
      by_cases hl : l = source
      · simp [hl]
      · simp [hl]

/-- Claim C2, witness for the amended theorem: a symlink pointing exactly
at the source is classified `Identical`. -/
theorem diff_symlink_classification_witness :
    isSymlink fsLinked tgtA = true ∧
    classifyEntry fsLinked srcA tgtA "H" =
      (if pathExists fsLinked tgtA then
        (if readLink fsLinked tgtA = some srcA then DiffStatus.Identical
         else DiffStatus.Modified)
       else DiffStatus.Missing) :=
  ⟨by decide, diff_symlink_classification fsLinked srcA tgtA "H" (by decide)⟩

/-- Claim C5, counterexample.  The claim says a hash failure on an
existing non-symlink target classifies the entry `Modified` and never
`Missing`.  In the code (src/diff/mod.rs line 86) the `Err(_)` arm of the
hash maps to `DiffStatus::Missing`.  Concretely: the target is a
directory (reading it for hashing fails with `EISDIR`), and the
classification is `Missing`. -/
theorem diff_hash_failure_is_missing :
    pathExists fsDirTarget tgtA = true ∧
    isSymlink fsDirTarget tgtA = false ∧
    hashFileFS fsDirTarget tgtA = none ∧
    classifyEntry fsDirTarget srcA tgtA "H" = DiffStatus.Missing ∧
    DiffStatus.Missing ≠ DiffStatus.Modified := by
  decide

/-- Claim C5, amended.  For a manifest entry whose target exists and is
not a symlink: equal digests give `Identical`, differing digests give
`Modified`, and a hash failure gives `Missing` (not `Modified`); in
every case classification is total — no entry aborts the diff pass, and
one `DiffEntry` is produced per manifest entry. -/
theorem diff_regular_target_classification (fs : FS) (source target : RPath)
    (stored : String) (hex : pathExists fs target = true)
    (hns : isSymlink fs target = false) :
    (classifyEntry fs source target stored =
      (match hashFileFS fs target with
       | some h => if h = stored then DiffStatus.Identical else DiffStatus.Modified
       | none => DiffStatus.Missing)) ∧
    (∀ (croot hme : RPath) (l : List (RPath × String)),
      (diffEntries fs croot hme l).length = l.length) := by
  constructor
  · unfold classifyEntry
    simp [hex, hns]
  · intro croot hme l
    induction l with
    | nil => rfl
    | cons hd tl ih => simpa [diffEntries] using ih

/-- Claim C5, witness for the amended theorem: a regular-file target with
a differing digest is classified `Modified`. -/
theorem diff_regular_target_classification_witness :
    pathExists fsOtherFile tgtA = true ∧
    isSymlink fsOtherFile tgtA = false ∧
    (classifyEntry fsOtherFile srcA tgtA "H" =
      (match hashFileFS fsOtherFile tgtA with
       | some h => if h = "H" then DiffStatus.Identical else DiffStatus.Modified
       | none => DiffStatus.Missing)) ∧
    (∀ (croot hme : RPath) (l : List (RPath × String)),
      (diffEntries fsOtherFile croot hme l).length = l.length) :=
  ⟨by decide, by decide,
   (diff_regular_target_classification fsOtherFile srcA tgtA "H"
     (by decide) (by decide)).1,
   (diff_regular_target_classification fsOtherFile srcA tgtA "H"
     (by decide) (by decide)).2⟩

/-- Deserializing a serialized fingerprint recovers it field for field. -/
theorem fileHash_fromJson_toJson (f : FileHash) :
    FileHash.fromJson (FileHash.toJson f) = some f :=
  rfl

/-- Deserializing a serialized `files` map recovers it entry for entry. -/
theorem decodeFiles_roundtrip (l : List (String × FileHash)) :
    decodeFiles (l.map (fun e => (e.1, FileHash.toJson e.2))) = some l := by
  induction l with
  | nil => rfl
  | cons hd tl ih =>
    simp only [List.map_cons, decodeFiles, fileHash_fromJson_toJson, ih]

/-- Claim C7, confirmed.  Loading the serialized form produced by saving a
non-empty manifest recovers a manifest equal to it in every field:
`version`, `created`, and every `path`/`hash`/`size`/`mode`/`modified` of
every fingerprint, under every key. -/
theorem manifest_save_load_roundtrip (m : Manifest) (hne : m.files ≠ []) :
    Manifest.load (Manifest.save m) = some m := by
  cases m with
  | mk v c files =>
    show (match decodeFiles (files.map (fun e => (e.1, FileHash.toJson e.2))) with
          | some fl => some (⟨v, c, fl⟩ : Manifest)
          | none => none) = some (⟨v, c, files⟩ : Manifest)
    rw [decodeFiles_roundtrip]

/-- A concrete one-entry manifest. -/
def manifest0 : Manifest :=
  ⟨"1.0.0", 99,
   [(".bashrc", ⟨"/home/u/.bashrc", "abc123", 13, 420, 1700000⟩)]⟩

/-- Claim C7, witness: the round trip at a concrete non-empty manifest. -/
theorem manifest_save_load_roundtrip_witness :
    manifest0.files ≠ [] ∧ Manifest.load (Manifest.save manifest0) = some manifest0 :=
  ⟨by decide, manifest_save_load_roundtrip manifest0 (by decide)⟩

/-- Lemma: `containsKey` means some binding with that key is present. -/
theorem containsKey_iff (l : List (String × FileHash)) (p : String) :
    containsKey l p = true ↔ ∃ fh, (p, fh) ∈ l := by
  induction l with
  | nil => simp [containsKey, lookupFH]
  | cons hd tl ih =>
    cases hd with
    | mk k v =>
      by_cases hk : k = p
      · subst hk
        simp [containsKey, lookupFH]
      · simp only [containsKey, lookupFH, if_neg hk] at *
        rw [ih]
        constructor
        · rintro ⟨fh, hfh⟩
          exact ⟨fh, List.mem_cons_of_mem _ hfh⟩
        · rintro ⟨fh, hfh⟩
          rcases List.mem_cons.mp hfh with heq | hmem
          · cases heq
            exact absurd rfl hk
          · exact ⟨fh, hmem⟩

/-- With unique keys, membership of a binding is the same as `lookup`
returning it. -/
theorem lookupFH_eq_of_nodup (l : List (String × FileHash))
    (hnd : (l.map (fun e => e.1)).Nodup) (p : String) (fh : FileHash) :
    (p, fh) ∈ l ↔ lookupFH l p = some fh := by
  induction l with
  | nil => simp [lookupFH]
  | cons hd tl ih =>
    cases hd with
    | mk k v =>
      simp only [List.map_cons, List.nodup_cons] at hnd
      by_cases hk : k = p
      · subst hk
        simp only [lookupFH, if_pos rfl, List.mem_cons]
        constructor
        · rintro (heq | hmem)
          · cases heq; rfl
          · exact absurd (List.mem_map.mpr ⟨(k, fh), hmem, rfl⟩) hnd.1
        · rintro heq
          cases heq
          exact Or.inl rfl
      · simp only [lookupFH, if_neg hk, List.mem_cons]
        rw [← ih hnd.2]
        constructor
        · rintro (heq | hmem)
          · cases heq
            exact absurd rfl hk
          · exact hmem
        · exact Or.inr

/-- Key membership in the map-of-filter shape used by `Manifest::diff`. -/
theorem mem_map_fst_filter (l : List (String × FileHash))
    (q : String × FileHash → Bool) (p : String) :
    p ∈ (l.filter q).map (fun e => e.1) ↔ ∃ e ∈ l, e.1 = p ∧ q e = true := by
  simp only [List.mem_map, List.mem_filter]
  constructor
  · rintro ⟨e, ⟨hmem, hq⟩, hfst⟩
    exact ⟨e, hmem, hfst, hq⟩
  · rintro ⟨e, hmem, hfst, hq⟩
    exact ⟨e, ⟨hmem, hq⟩, hfst⟩

/-- Claim C8, confirmed.  `Manifest::diff` returns exactly: `added` = the
keys of `other` absent from `self`, `deleted` = the keys of `self` absent
from `other`, and `modified` = the keys present in both whose stored
hashes differ (stated with `self`'s keys unique, as `HashMap` keys are).
It is a pure function of the two key-to-fingerprint maps — the
definition takes no filesystem argument at all. -/
theorem manifest_diff_characterization (mOld mNew : Manifest)
    (hnd : (mOld.files.map (fun e => e.1)).Nodup) (p : String) :
    (p ∈ (mOld.diff mNew).added ↔
      containsKey mNew.files p = true ∧ containsKey mOld.files p = false) ∧
    (p ∈ (mOld.diff mNew).deleted ↔
      containsKey mOld.files p = true ∧ containsKey mNew.files p = false) ∧
    (p ∈ (mOld.diff mNew).modified ↔
      ∃ h oh, lookupFH mOld.files p = some h ∧ lookupFH mNew.files p = some oh ∧
        h.hash ≠ oh.hash) := by
  refine ⟨?_, ?_, ?_⟩
  · rw [show (mOld.diff mNew).added =
      (mNew.files.filter (fun e => !containsKey mOld.files e.1)).map
        (fun e => e.1) from rfl]
    rw [mem_map_fst_filter]
    constructor
    · rintro ⟨e, hmem, hfst, hq⟩
      subst hfst
      refine ⟨(containsKey_iff _ _).mpr ⟨e.2, ?_⟩, by simpa using hq⟩
      simpa using hmem
    · rintro ⟨hin, hout⟩
      rcases (containsKey_iff _ _).mp hin with ⟨fh, hfh⟩
      exact ⟨(p, fh), hfh, rfl, by simpa using hout⟩
  · rw [show (mOld.diff mNew).deleted =
      (mOld.files.filter (fun e => (lookupFH mNew.files e.1).isNone)).map
        (fun e => e.1) from rfl]
    rw [mem_map_fst_filter]
    constructor
    · rintro ⟨e, hmem, hfst, hq⟩
      subst hfst
      refine ⟨(containsKey_iff _ _).mpr ⟨e.2, by simpa using hmem⟩, ?_⟩
      simp only [containsKey]
      simpa [Option.isNone_iff_eq_none] using hq
    · rintro ⟨hin, hout⟩
      rcases (containsKey_iff _ _).mp hin with ⟨fh, hfh⟩
      refine ⟨(p, fh), hfh, rfl, ?_⟩
      simp only [containsKey] at hout
      simpa [Option.isNone_iff_eq_none] using hout
  · rw [show (mOld.diff mNew).modified =
      (mOld.files.filter (fun e =>
        match lookupFH mNew.files e.1 with
        | some oh => !(e.2.hash = oh.hash : Bool)
        | none => false)).map (fun e => e.1) from rfl]
    rw [mem_map_fst_filter]
    constructor
    · rintro ⟨e, hmem, hfst, hq⟩
      subst hfst
      rcases hoh : lookupFH mNew.files e.1 with _ | oh
      · rw [hoh] at hq
        simp at hq
      · rw [hoh] at hq
        refine ⟨e.2, oh, ?_, rfl, by simpa using hq⟩
        exact (lookupFH_eq_of_nodup _ hnd _ _).mp (by simpa using hmem)

    · rintro ⟨h, oh, hold, hnew, hneq⟩
      refine ⟨(p, h), (lookupFH_eq_of_nodup _ hnd _ _).mpr hold, rfl, ?_⟩
      rw [hnew]
      simpa using hneq

/-- Two concrete manifests sharing key `"a"` with differing hashes. -/
def manifestOld : Manifest :=
  ⟨"1.0.0", 0, [("a", ⟨"a", "h1", 1, 0, 0⟩), ("b", ⟨"b", "h2", 1, 0, 0⟩)]⟩

def manifestNew : Manifest :=
  ⟨"1.0.0", 0, [("a", ⟨"a", "h1x", 1, 0, 0⟩), ("c", ⟨"c", "h3", 1, 0, 0⟩)]⟩

/-- Claim C8, witness: the characterization at a concrete pair of
manifests and the key `"c"` (added in the new manifest). -/
theorem manifest_diff_characterization_witness :
    (manifestOld.files.map (fun e => e.1)).Nodup ∧
    ("c" ∈ (manifestOld.diff manifestNew).added ↔
      containsKey manifestNew.files "c" = true ∧
      containsKey manifestOld.files "c" = false) :=
  ⟨by decide, (manifest_diff_characterization manifestOld manifestNew
    (by decide) "c").1⟩

/-- A path resolving to a directory does not resolve to a regular file. -/
theorem isFile_eq_false_of_isDir (fs : FS) (p : RPath) (h : isDir fs p = true) :
    isFile fs p = false := by
  unfold isDir at h
  split at h
  · rename_i heq
    unfold isFile
    rw [heq]
  · exact absurd h (by simp)

/-- Both branches of the Copy-mode execute step carry the same action. -/
theorem ite_pair_snd (c : Prop) [Decidable c] (x y : FS) (a : AppliedAction) :
    (if c then (x, a) else (y, a)).2 = a := by
  split <;> rfl

/-- Claim C10, confirmed.  In Copy mode `is_already_applied` holds exactly
when the target is present and both source and target resolve to regular
files with equal digests; whenever the source (or the existing target)
resolves to a directory the check is `false`, so a directory entry in
Copy mode is never reported "Already applied" and — whenever the entry is
allowed to proceed (here: `force`) — is re-copied, yielding a `Copied`
outcome with no skip reason. -/
theorem copy_mode_idempotency_characterization (fs : FS) (source target : RPath)
    (bke pr : Bool) (bp : RPath) :
    (is_already_applied fs source target RestoreMode.Copy =
      ((pathExists fs target || isSymlink fs target) &&
       ((isFile fs source && isFile fs target) &&
        decide (hashFileFS fs source = hashFileFS fs target)))) ∧
    (isDir fs source = true →
      is_already_applied fs source target RestoreMode.Copy = false) ∧
    (isDir fs target = true →
      is_already_applied fs source target RestoreMode.Copy = false) ∧
    (isDir fs source = true → pathExists fs source = true →
      (apply_file fs source target RestoreMode.Copy bke true pr bp).2.mode =
        AppliedMode.Copied ∧
      (apply_file fs source target RestoreMode.Copy bke true pr bp).2.skipped_reason =
        none) := by
  have hchar : is_already_applied fs source target RestoreMode.Copy =
      ((pathExists fs target || isSymlink fs target) &&
       ((isFile fs source && isFile fs target) &&
        decide (hashFileFS fs source = hashFileFS fs target))) := by
    cases hpe : pathExists fs target <;> cases hsl : isSymlink fs target <;>
      cases hfs : isFile fs source <;> cases hft : isFile fs target <;>
        simp [is_already_applied, hpe, hsl, hfs, hft]
  have hdirs : isDir fs source = true →
      is_already_applied fs source target RestoreMode.Copy = false := by
    intro h
    rw [hchar, isFile_eq_false_of_isDir fs source h]
    simp
  refine ⟨hchar, hdirs, ?_, ?_⟩
  · intro h
    rw [hchar, isFile_eq_false_of_isDir fs target h]
    simp
  · intro hds hpe
    have hnia := hdirs hds
    unfold apply_file
    simp only [hpe, hnia, Bool.not_true, Bool.false_and, Bool.and_false,
      Bool.false_eq_true, if_false]
    exact ⟨by rw [ite_pair_snd], by rw [ite_pair_snd]⟩

def relDir : RPath := ⟨false, ["cfgdir"]⟩

def srcDir : RPath := comp0.join relDir

def tgtDir : RPath := home0.join relDir

/-- A directory source (with one file inside) and no target. -/
def fsDirSource : FS :=
  [(srcDir, Node.dir), (⟨true, ["home", "u", "dots", "cfgdir", "f"]⟩, Node.file "X")]

/-- Claim C10, witness: a directory entry in Copy mode is not "already
applied", and with `force` it yields a `Copied` outcome. -/
theorem copy_mode_idempotency_characterization_witness :
    is_already_applied fsDirSource srcDir tgtDir RestoreMode.Copy = false ∧
    ((apply_file fsDirSource srcDir tgtDir RestoreMode.Copy false true false
        ⟨true, ["b"]⟩).2.mode = AppliedMode.Copied ∧
     (apply_file fsDirSource srcDir tgtDir RestoreMode.Copy false true false
        ⟨true, ["b"]⟩).2.skipped_reason = none) :=
  ⟨(copy_mode_idempotency_characterization fsDirSource srcDir tgtDir false false
      ⟨true, ["b"]⟩).2.1 (by decide),
   (copy_mode_idempotency_characterization fsDirSource srcDir tgtDir false false
      ⟨true, ["b"]⟩).2.2.2 (by decide) (by decide)⟩

theorem lookup_insert_self (fs : FS) (p : RPath) (n : Node) :
    FS.lookup (FS.insert fs p n) p = some n := by
  simp [FS.insert, FS.lookup]

/-- After the symlink execute step, the idempotency check holds: the
target is a symlink whose literal value is the source. -/
theorem is_already_applied_insert_symlink (fs : FS) (s t : RPath) :
    is_already_applied (FS.insert fs t (Node.symlink s)) s t
      RestoreMode.Symlink = true := by
  have hl : isSymlink (FS.insert fs t (Node.symlink s)) t = true := by
    unfold isSymlink
    rw [lookup_insert_self]
  have hr : readLink (FS.insert fs t (Node.symlink s)) t = some s := by
    unfold readLink
    rw [lookup_insert_self]
  unfold is_already_applied
  rw [hl, hr]
  simp

/-- When the idempotency check holds, `apply_file` mutates nothing and
reports `"Already applied"` with the resolved mode. -/
theorem apply_file_when_already_applied (fs : FS) (source target : RPath)
    (mode : RestoreMode) (be f pr : Bool) (bp : RPath)
    (hsrc : pathExists fs source = true)
    (happ : is_already_applied fs source target mode = true) :
    apply_file fs source target mode be f pr bp =
      (fs, ⟨alreadyAppliedMode mode, target, source, false,
            some "Already applied"⟩) := by
  unfold apply_file
  rw [hsrc, happ]
  simp

/-- Claim C1, counterexample.  The claim says the second pass yields, for
every entry, an outcome whose *mode is `Skipped`* with reason
`"Already applied"`.  In the code (src/repo/apply.rs 192–196) the
already-applied outcome's mode is `Symlinked`/`Copied` — the resolved
mode — not `Skipped`; only the reason string records the skip.
Concretely: one symlink-mode entry applied twice on an unchanged tree
gives, on the second pass, mode `Symlinked` (≠ `Skipped`) with reason
`"Already applied"` (and indeed no filesystem mutation). -/
theorem second_pass_mode_is_not_skipped :
    (applyEntries baseEnv fsSourceOnly [relA]).2.map
        (fun a => (a.mode, a.skipped_reason)) = [(AppliedMode.Symlinked, none)] ∧
    ((applyEntries baseEnv (applyEntries baseEnv fsSourceOnly [relA]).1 [relA]).2.map
        (fun a => (a.mode, a.skipped_reason)) =
      [(AppliedMode.Symlinked, some "Already applied")]) ∧
    (applyEntries baseEnv (applyEntries baseEnv fsSourceOnly [relA]).1 [relA]).1 =
      (applyEntries baseEnv fsSourceOnly [relA]).1 ∧
    AppliedMode.Symlinked ≠ AppliedMode.Skipped := by
  decide

/-- Claim C1, amended.  Running `apply_file` again after a *successful*
symlink-mode pass, with the source still present, performs no filesystem
mutation and yields the outcome with `skipped_reason = "Already applied"`
and mode equal to the resolved mode (`Symlinked`), not `Skipped`. -/
theorem apply_file_symlink_second_pass (fs : FS) (source target : RPath)
    (be f pr : Bool) (bp : RPath) (fs1 : FS) (a : AppliedAction)
    (h1 : apply_file fs source target RestoreMode.Symlink be f pr bp = (fs1, a))
    (hsucc : a.skipped_reason = none)
    (hsrc : pathExists fs1 source = true)
    (be' f' pr' : Bool) (bp' : RPath) :
    apply_file fs1 source target RestoreMode.Symlink be' f' pr' bp' =
      (fs1, ⟨AppliedMode.Symlinked, target, source, false,
             some "Already applied"⟩) := by
  unfold apply_file at h1
  split at h1
  · injection h1 with hfs ha
    rw [← ha] at hsucc
    simp at hsucc
  · split at h1
    · injection h1 with hfs ha
      rw [← ha] at hsucc
      simp at hsucc
    · split at h1
      · injection h1 with hfs ha
        rw [← ha] at hsucc
        simp at hsucc
      · injection h1 with hfs ha
        rw [← hfs] at hsrc ⊢
        exact apply_file_when_already_applied _ _ _ _ _ _ _ _ hsrc
          (is_already_applied_insert_symlink _ _ _)

/-- The state after the first (successful) pass on `fsSourceOnly`. -/
def fsAfterPass1 : FS :=
  (apply_file fsSourceOnly srcA tgtA RestoreMode.Symlink false false false
    ⟨true, ["b"]⟩).1

/-- The action of the first pass on `fsSourceOnly`. -/
def actPass1 : AppliedAction :=
  (apply_file fsSourceOnly srcA tgtA RestoreMode.Symlink false false false
    ⟨true, ["b"]⟩).2

/-- Claim C1, witness for the amended theorem at a concrete entry. -/
theorem apply_file_symlink_second_pass_witness :
    apply_file fsAfterPass1 srcA tgtA RestoreMode.Symlink false false false
      ⟨true, ["b"]⟩ =
      (fsAfterPass1, ⟨AppliedMode.Symlinked, tgtA, srcA, false,
                      some "Already applied"⟩) :=
  apply_file_symlink_second_pass fsSourceOnly srcA tgtA false false false
    ⟨true, ["b"]⟩ fsAfterPass1 actPass1 rfl (by decide) (by decide)
    false false false ⟨true, ["b"]⟩

def relEvil : RPath := ⟨false, ["..", "evil"]⟩

def envForce : Env := { baseEnv with force := true }

def srcEvil : RPath := comp0.join relEvil

def fsEvil : FS := [(srcEvil, Node.file "H")]

/-- Claim C3, counterexample.  The claim says every entry whose target
*resolves* outside the target root is skipped `"Outside $HOME"` with no
write.  The code's guard is `target_path.starts_with(&home_dir)` — a
purely syntactic component-prefix test with no `..` resolution.  For the
entry `../evil`, the joined target `/home/u/../evil` resolves to
`/home/evil` (outside the root) yet literally starts with `/home/u`, so
with `allow_outside_home = false` and `force = true` the entry is not
skipped: a symlink is created and the filesystem changes. -/
theorem outside_home_dotdot_escape :
    envForce.allow_outside_home = false ∧
    resolvesOutside home0 (targetOf envForce relEvil) = true ∧
    (applyEntries envForce fsEvil [relEvil]).2.map
        (fun a => (a.mode, a.skipped_reason)) = [(AppliedMode.Symlinked, none)] ∧
    (applyEntries envForce fsEvil [relEvil]).1 ≠ fsEvil := by
  decide

/-- Claim C3, amended.  With `allow_outside_home = false`, every
*non-encrypted* entry whose target path does not have the target root as
a literal component prefix yields `Skipped("Outside $HOME")` and no
filesystem write occurs for that entry, for every value of `force` (the
conclusion does not depend on `E.force`); escape via `..` components is
not detected, and an encrypted entry writes (and leaks) its temp
plaintext before this check. -/
theorem outside_home_literal_skip (E : Env) (fs : FS) (rel : RPath)
    (hallow : E.allow_outside_home = false)
    (henc : isEncryptedSource E rel = false)
    (hout : (targetOf E rel).startsWith E.home = false) :
    applyEntry E fs rel =
      (fs, ⟨AppliedMode.Skipped, targetOf E rel, sourceOf E rel, false,
            some "Outside $HOME"⟩) := by
  simp only [applyEntry, applyEntryRest, henc, hallow, hout]
  simp

def relEtc : RPath := ⟨true, ["etc", "hosts"]⟩

/-- Claim C3, witness: an absolute-path entry (`/etc/hosts`) is skipped
with reason `"Outside $HOME"` and the filesystem is unchanged. -/
theorem outside_home_literal_skip_witness :
    applyEntry baseEnv fsSourceOnly relEtc =
      (fsSourceOnly, ⟨AppliedMode.Skipped, targetOf baseEnv relEtc,
        sourceOf baseEnv relEtc, false, some "Outside $HOME"⟩) :=
  outside_home_literal_skip baseEnv fsSourceOnly relEtc (by decide) (by decide)
    (by decide)

def relSec : RPath := ⟨false, ["secret.age"]⟩

def srcSec : RPath := comp0.join relSec

/-- Environment marking `~/secret.age` as excluded. -/
def envExcl : Env := { baseEnv with files := [("~/secret.age", ⟨none, true⟩)] }

def fsSec : FS := [(srcSec, Node.file "CIPHER")]

def tmp1 : RPath := ⟨true, ["tmp", "t1"]⟩

/-- Claim C4, the code evaluated at the failing input.  For an encrypted
entry that decrypts successfully and is then skipped by the exclusion
check, the decrypted temp plaintext file written before the check is
*not* deleted: the cleanup (src/repo/apply.rs 157–159) runs only after
`apply_file` returns, and the `continue` statements of the safety and
exclusion skips (and the `?` on a fatal `apply_file` error) bypass it.
The spec's guarantee ("removed after the entry completes regardless of
outcome") is the documented intent; the code leaks the plaintext. -/
theorem temp_decrypted_file_leaked_on_skip :
    (applyEntries envExcl fsSec [relSec]).2.map (fun a => a.skipped_reason) =
      [some "Excluded"] ∧
    FS.lookup (applyEntries envExcl fsSec [relSec]).1 tmp1 =
      some (Node.file "PLAIN") := by
  decide

/-- Environment whose decryption collaborator fails (e.g. the encrypted
source file is absent). -/
def envNoDecrypt : Env := { baseEnv with decryptFn := fun _ => none }

/-- Claim C6, counterexample.  The claim says the source-existence check
is the first check, performed before the encryption check, and that every
entry with a missing source records `Skipped("Source not found")`.  In
the code the encryption check (and decryption attempt) comes first — the
source check lives inside `apply_file`, after the safety and exclusion
checks.  Concretely: an encrypted entry whose source does not exist is
recorded as `Skipped("Decryption failed")`, not `"Source not found"`. -/
theorem missing_source_encrypted_entry_reason :
    pathExists ([] : FS) (sourceOf envNoDecrypt relSec) = false ∧
    (applyEntries envNoDecrypt ([] : FS) [relSec]).2.map
        (fun a => a.skipped_reason) = [some "Decryption failed"] ∧
    some "Decryption failed" ≠ some "Source not found" := by
  decide

/-- Claim C6, amended.  For a non-encrypted entry that passes the safety
and exclusion checks, a missing source yields
`Skipped("Source not found")` with no filesystem change; within
`apply_file` this is the first check — the conclusion holds for every
filesystem state of the target, every resolved mode, and every value of
`force`, `backup` and the prompt. -/
theorem source_missing_skip (E : Env) (fs : FS) (rel : RPath)
    (henc : isEncryptedSource E rel = false)
    (hsafe : (!E.allow_outside_home && !(targetOf E rel).startsWith E.home) = false)
    (hexc : isExcluded E rel = false)
    (hsrc : pathExists fs (sourceOf E rel) = false) :
    applyEntry E fs rel =
      (fs, ⟨AppliedMode.Skipped, targetOf E rel, sourceOf E rel, false,
            some "Source not found"⟩) := by
  simp only [applyEntry, applyEntryRest, apply_file, henc, hsafe, hexc, hsrc]
  simp

/-- Claim C6, witness: a plain entry with no compiled source is skipped
`"Source not found"`. -/
theorem source_missing_skip_witness :
    applyEntry baseEnv ([] : FS) relA =
      (([] : FS), ⟨AppliedMode.Skipped, targetOf baseEnv relA,
        sourceOf baseEnv relA, false, some "Source not found"⟩) :=
  source_missing_skip baseEnv ([] : FS) relA (by decide) (by decide)
    (by decide) (by decide)

def relB : RPath := ⟨false, [".vimrc"]⟩

def srcB : RPath := comp0.join relB

/-- Two plain entries, both with compiled sources. -/
def fsTwo : FS := [(srcA, Node.file "H"), (srcB, Node.file "G")]

/-- Claim C9, counterexample.  The claim says apply visits entries in a
fixed deterministic order *determined by the manifest*, the same across
runs.  `Manifest.files` is a `HashMap<PathBuf, FileHash>` and the apply
loop iterates it directly (src/repo/apply.rs line 56) — unlike the diff
engine, which explicitly sorts the keys first (src/diff/mod.rs 60–62).
`HashMap` iteration order depends on the per-process random hash seed,
so two runs over the same manifest may enumerate the keys as `[a, b]` or
as `[b, a]`: the two enumerations of the same two-entry key set below
produce outcome lists in different orders. -/
theorem apply_order_not_determined_by_manifest :
    List.Perm [relA, relB] [relB, relA] ∧
    (applyEntries baseEnv fsTwo [relA, relB]).2 ≠
      (applyEntries baseEnv fsTwo [relB, relA]).2 := by
  constructor
  · decide
  · decide

/-- The target path an entry's outcome reports, as a function of the
entry and the oracles alone (independent of the filesystem state). -/
def entryTarget (E : Env) (rel : RPath) : RPath :=
  if isEncryptedSource E rel then
    match E.decryptFn (sourceOf E rel) with
    | some _ => (targetOf E rel).stripLastExtension
    | none => targetOf E rel
  else targetOf E rel

/-- Every branch of `apply_file` reports the given target. -/
theorem apply_file_action_target (fs : FS) (source target : RPath)
    (mode : RestoreMode) (be f pr : Bool) (bp : RPath) :
    (apply_file fs source target mode be f pr bp).2.target = target := by
  unfold apply_file
  split
  · rfl
  · split
    · rfl
    · split
      · rfl
      · cases mode with
        | Symlink => rfl
        | Copy =>
          dsimp only
          rw [ite_pair_snd]

/-- Every branch of the post-decryption tail reports the given target. -/
theorem applyEntryRest_action_target (E : Env) (fs : FS)
    (rel source target : RPath) (tc : Option RPath) :
    (applyEntryRest E fs rel source target tc).2.target = target := by
  unfold applyEntryRest
  split
  · rfl
  · split
    · rfl
    · cases tc with
      | none => exact apply_file_action_target _ _ _ _ _ _ _ _
      | some t => exact apply_file_action_target _ _ _ _ _ _ _ _

/-- One loop iteration reports the target `entryTarget` assigns to the
entry, whatever the current filesystem state. -/
theorem applyEntry_action_target (E : Env) (fs : FS) (rel : RPath) :
    (applyEntry E fs rel).2.target = entryTarget E rel := by
  unfold applyEntry entryTarget
  cases henc : isEncryptedSource E rel with
  | false =>
    simp only [henc, Bool.false_eq_true, if_false]
    exact applyEntryRest_action_target _ _ _ _ _ _
  | true =>
    simp only [henc, if_true]
    cases hd : E.decryptFn (sourceOf E rel) with
    | none => rfl
    | some content =>
      dsimp only
      exact applyEntryRest_action_target _ _ _ _ _ _

/-- Claim C9, amended.  Apply is sequential: it produces exactly one
outcome per visited entry, reported in visitation order (the i-th outcome
belongs to the i-th visited entry).  The visitation order, however, is
the iteration order of the in-memory `files` hash map — an enumeration of
the manifest's key set that is not a function of the manifest's contents
— so two runs over equal manifests need not report outcomes in the same
order. -/
theorem apply_outcomes_follow_visitation_order (E : Env) (fs : FS)
    (es : List RPath) :
    (applyEntries E fs es).2.map (fun a => a.target) = es.map (entryTarget E) ∧
    (applyEntries E fs es).2.length = es.length := by
  have hmap : ∀ (fs : FS),
      (applyEntries E fs es).2.map (fun a => a.target) =
        es.map (entryTarget E) := by
    induction es with
    | nil => intro fs; rfl
    | cons hd tl ih =>
      intro fs
      simp only [applyEntries, List.map_cons]
      rw [applyEntry_action_target, ih]
  refine ⟨hmap fs, ?_⟩
  have hlen := congrArg List.length (hmap fs)
  simpa using hlen

end Dotdipper
